import Mathlib

/-!
Verification of the MatchZoo `DataGenerator`.

Shallow embedding of `matchzoo/data_generator/data_generator.py`: a batch
index generator that partitions the indices `[0, num_instances)` of an
external dataset (`DataPack`) into consecutive batches of `batch_size`
indices, optionally over a freshly drawn random permutation.

The dataset is opaque: only its length (`lenD`) and its
select-then-unpack operation (`unpackAt`) are visible to the generator, so
both are parameters of the embedding.  The process-wide numpy random
source used by `np.random.permutation` is modelled by an abstract state
type `σ` together with a draw function
`randPerm : σ → Nat → List Nat × σ`; numpy's contract that the draw is a
permutation of `range n` enters theorems as an explicit hypothesis.
Python's `IndexError` is modelled by `Option`: `none` is the raised error.
-/

namespace MatchZoo

/-- State of a `DataGenerator` object: the fields set in `__init__`.
`_batch_indices` starts as `None` in the source and is immediately
overwritten by `_set_indices`; it is represented here as a plain list,
initialised to `[]` by the constructor before `_set_indices` runs. -/
structure DataGenerator (δ : Type) where
  data_pack : δ
  batch_size : Nat
  shuffle : Bool
  batch_indices : List (List Nat)

/-- `num_instance` property: `len(self._data_pack)`, read live from the
dataset. -/
def numInstance {δ : Type} (lenD : δ → Nat) (g : DataGenerator δ) : Nat :=
  lenD g.data_pack

/-- `__len__`: `math.ceil(self.num_instance / self._batch_size)`.  For a
positive batch size this ceiling is the natural number `(n + b - 1) / b`. -/
def len {δ : Type} (lenD : δ → Nat) (g : DataGenerator δ) : Nat :=
  (numInstance lenD g + g.batch_size - 1) / g.batch_size

/-- `_set_indices`: draw `index_pool` (`np.random.permutation(n).tolist()`
when shuffling, `list(range(n))` otherwise), then slice it at
`[batch_size*i, batch_size*(i+1))` for `i in range(len(self))`, storing the
slices as the new `_batch_indices`.  Returns the updated generator together
with the advanced random-source state. -/
def setIndices {δ σ : Type} (lenD : δ → Nat) (randPerm : σ → Nat → List Nat × σ)
    (g : DataGenerator δ) (rng : σ) : DataGenerator δ × σ :=
  let drawn := if g.shuffle then randPerm rng (numInstance lenD g)
    else (List.range (numInstance lenD g), rng)
  let index_pool := drawn.1
  let bi := (List.range (len lenD g)).map (fun i =>
    let lower := g.batch_size * i
    let upper := g.batch_size * (i + 1)
    (index_pool.drop lower).take (upper - lower))
  ({ g with batch_indices := bi }, drawn.2)

/-- `__init__`: store the dataset reference, batch size and shuffle flag,
then compute the initial index partition via `_set_indices`. -/
def mkDataGenerator {δ σ : Type} (lenD : δ → Nat) (randPerm : σ → Nat → List Nat × σ)
    (dp : δ) (bs : Nat) (sh : Bool) (rng : σ) : DataGenerator δ × σ :=
  setIndices lenD randPerm
    { data_pack := dp, batch_size := bs, shuffle := sh, batch_indices := [] } rng

/-- `reset`: recompute the index partition via `_set_indices`. -/
def reset {δ σ : Type} (lenD : δ → Nat) (randPerm : σ → Nat → List Nat × σ)
    (g : DataGenerator δ) (rng : σ) : DataGenerator δ × σ :=
  setIndices lenD randPerm g rng

/-- `on_epoch_end`: recompute the index partition via `_set_indices`. -/
def onEpochEnd {δ σ : Type} (lenD : δ → Nat) (randPerm : σ → Nat → List Nat × σ)
    (g : DataGenerator δ) (rng : σ) : DataGenerator δ × σ :=
  setIndices lenD randPerm g rng

/-- Argument of `__getitem__`: a single Python `int` batch index (possibly
negative) or a slice `a:b` with non-negative bounds, as exercised by the
doctests (`[:2]` is `[0:2]` on a list). -/
inductive BatchItem where
  | single : Int → BatchItem
  | slice : Nat → Nat → BatchItem

/-- Python list indexing `l[i]` for an `int` index: a negative index is
shifted by `len(l)`; an index that is still out of bounds raises
`IndexError`, modelled by `none`. -/
def pyListGet {β : Type} (l : List β) (i : Int) : Option β :=
  let j := if i < 0 then i + l.length else i
  if 0 ≤ j then l[j.toNat]? else none

/-- The index list `__getitem__` computes and hands to
`_get_batch_of_transformed_samples`: `self._batch_indices[item]` for an
`int`, `sum(self._batch_indices[item], [])` for a slice (Python's
`l[a:b]` is drop `a` then take `b - a`; `sum(·, [])` is a left fold of
list concatenation starting from `[]`). -/
def getItemIndices {δ : Type} (g : DataGenerator δ) : BatchItem → Option (List Nat)
  | .single i => pyListGet g.batch_indices i
  | .slice a b =>
      some (((g.batch_indices.drop a).take (b - a)).foldl (fun acc x => acc ++ x) [])

/-- `__getitem__`: the computed index list is passed, in one call, to
`_get_batch_of_transformed_samples`, i.e. to
`self._data_pack[indices].unpack()`, modelled by `unpackAt`. -/
def getItem {δ α : Type} (unpackAt : δ → List Nat → α) (g : DataGenerator δ)
    (it : BatchItem) : Option α :=
  (getItemIndices g it).map (fun ixs => unpackAt g.data_pack ixs)

/-- Concrete dataset used to instantiate witnesses: the dataset is its own
size. -/
def natLen : Nat → Nat := fun n => n

/-- Concrete random source used to instantiate witnesses: the drawn
permutation reverses `range n`. -/
def revPerm : Unit → Nat → List Nat × Unit := fun s n => ((List.range n).reverse, s)

/-- Concrete unpack operation used to instantiate witnesses: it returns the
selected indices themselves. -/
def idUnpack : Nat → List Nat → List Nat := fun _ ixs => ixs

/-- A concrete non-shuffled generator over a two-instance dataset with
batch size 1, as built by `__init__`. -/
def gTwo : DataGenerator Nat :=
  (mkDataGenerator natLen revPerm 2 1 false ()).1

/-- A concrete shuffled generator state over a three-instance dataset. -/
def gShufA : DataGenerator Nat :=
  { data_pack := 3, batch_size := 2, shuffle := true, batch_indices := [] }

/-- A second shuffled generator state over the same dataset size and batch
size as `gShufA` but with a different stored partition. -/
def gShufB : DataGenerator Nat :=
  { data_pack := 3, batch_size := 2, shuffle := true, batch_indices := [[9]] }

/-- The partition property asserted by the spec: the stored batches
concatenate to `range n` up to order (each index exactly once), there are
`ceil(n / bs)` of them, and all but possibly the last have exactly `bs`
elements. -/
def partitionOk (bi : List (List Nat)) (n bs : Nat) : Prop :=
  bi.flatten.Perm (List.range n)
    ∧ bi.length = (n + bs - 1) / bs
    ∧ ∀ i, i + 1 < bi.length → (bi.getD i []).length = bs

/-! Helper lemmas -/

/-- Python's `sum(L, [])` is a left fold of `++`; it concatenates. -/
theorem foldl_append_eq_flatten {β : Type} (L : List (List β)) (a : List β) :
    L.foldl (fun x y => x ++ y) a = a ++ L.flatten := by
  induction L generalizing a with
  | nil => simp
  | cons x xs ih => simp [ih]

/-- Width of the slice `[batch_size*i, batch_size*(i+1))`. -/
theorem chunk_width (bs i : Nat) : bs * (i + 1) - bs * i = bs := by
  simp [Nat.mul_succ]

/-- The `_batch_indices` list produced by `_set_indices`, written out. -/
theorem setIndices_batch_indices {δ σ : Type} (lenD : δ → Nat)
    (randPerm : σ → Nat → List Nat × σ) (g : DataGenerator δ) (rng : σ) :
    (setIndices lenD randPerm g rng).1.batch_indices
      = (List.range (len lenD g)).map (fun i =>
          ((if g.shuffle then (randPerm rng (numInstance lenD g)).1
            else List.range (numInstance lenD g)).drop (g.batch_size * i)).take
            (g.batch_size * (i + 1) - g.batch_size * i)) := by
  cases hs : g.shuffle <;> simp [setIndices, hs]

/-- Concatenating the consecutive `bs`-wide slices of `l` recovers a prefix
of `l`. -/
theorem flatten_chunks {β : Type} (bs k : Nat) (l : List β) :
    ((List.range k).map (fun i => (l.drop (bs * i)).take bs)).flatten
      = l.take (bs * k) := by
  induction k generalizing l with
  | zero => simp
  | succ k ih =>
      rw [List.range_succ_eq_map, List.map_cons, List.map_map, List.flatten_cons]
      have h1 : ((fun i => (l.drop (bs * i)).take bs) ∘ Nat.succ)
          = fun i => ((l.drop bs).drop (bs * i)).take bs := by
        funext i
        simp [List.drop_drop, Nat.mul_succ, Nat.add_comm]
      rw [h1, ih, Nat.mul_zero, List.drop_zero, ← List.take_add]
      rw [Nat.mul_succ, Nat.add_comm]

/-- The ceiling division `(n + bs - 1) / bs` reaches `n`. -/
theorem le_mul_ceil (n bs : Nat) (h : 0 < bs) : n ≤ bs * ((n + bs - 1) / bs) := by
  have h1 := Nat.div_add_mod (n + bs - 1) bs
  have h2 : (n + bs - 1) % bs < bs := Nat.mod_lt _ h
  omega

/-- All but the last of the `(n + bs - 1) / bs` slices end strictly before
`n`. -/
theorem mul_pred_ceil_lt (n bs : Nat) (h : 0 < bs) (h1 : 1 ≤ (n + bs - 1) / bs) :
    bs * ((n + bs - 1) / bs - 1) < n := by
  have h2 := Nat.div_add_mod (n + bs - 1) bs
  have h3 : (n + bs - 1) % bs < bs := Nat.mod_lt _ h
  have h4 : bs * ((n + bs - 1) / bs - 1) = bs * ((n + bs - 1) / bs) - bs := by
    rw [Nat.mul_sub, Nat.mul_one]
  have h5 : bs * 1 ≤ bs * ((n + bs - 1) / bs) := Nat.mul_le_mul_left bs h1
  rw [Nat.mul_one] at h5
  omega

/-- After `_set_indices`, the stored partition satisfies `partitionOk`,
provided the batch size is positive and the random source honours numpy's
contract of returning a permutation of `range n`. -/
theorem setIndices_partitionOk {δ σ : Type} (lenD : δ → Nat)
    (randPerm : σ → Nat → List Nat × σ) (g : DataGenerator δ) (rng : σ)
    (hbs : 0 < g.batch_size)
    (hperm : ∀ s n, ((randPerm s n).1).Perm (List.range n)) :
    partitionOk ((setIndices lenD randPerm g rng).1.batch_indices)
      (numInstance lenD g) g.batch_size := by
  have hb := setIndices_batch_indices lenD randPerm g rng
  set n := numInstance lenD g with hn
  set bs := g.batch_size with hbsd
  set k := len lenD g with hk
  have hkd : k = (n + bs - 1) / bs := rfl
  set pool := (if g.shuffle then (randPerm rng n).1 else List.range n) with hpool
  have hpoolperm : pool.Perm (List.range n) := by
    rw [hpool]
    cases g.shuffle with
    | false => simp
    | true => simpa using hperm rng n
  have hpoollen : pool.length = n := by
    have := hpoolperm.length_eq
    simpa using this
  have hchunks : (List.range k).map (fun i => (pool.drop (bs * i)).take
        (bs * (i + 1) - bs * i))
      = (List.range k).map (fun i => (pool.drop (bs * i)).take bs) :=
    List.map_congr_left (fun i _ => by rw [chunk_width])
  rw [hb, hchunks] at *
  refine ⟨?_, ?_, ?_⟩
  · rw [flatten_chunks]
    have hcov : n ≤ bs * k := hkd ▸ le_mul_ceil n bs hbs
    rw [List.take_of_length_le (by omega)]
    exact hpoolperm
  · simp [hkd]
  · intro i hi
    rw [List.length_map, List.length_range] at hi
    have hilen : i < ((List.range k).map
        (fun i => (pool.drop (bs * i)).take bs)).length := by
      rw [List.length_map, List.length_range]
      omega
    rw [List.getD_eq_getElem _ _ hilen, List.getElem_map, List.getElem_range]
    rw [List.length_take, List.length_drop, hpoollen]
    have hmul : bs * (i + 1) ≤ bs * (k - 1) := Nat.mul_le_mul_left bs (by omega)
    have hlt : bs * (k - 1) < n := hkd ▸ mul_pred_ceil_lt n bs hbs (by omega)
    have hms : bs * (i + 1) = bs * i + bs := by rw [Nat.mul_succ]
    omega

/-- Dropping then taking from `range n` yields a contiguous `range'`. -/
theorem take_drop_range (n m t : Nat) :
    ((List.range n).drop m).take t = List.range' m (min t (n - m)) := by
  apply List.ext_getElem
  · simp [List.length_take, List.length_drop, List.length_range, List.length_range']
  · intro j h1 h2
    rw [List.getElem_take, List.getElem_drop, List.getElem_range, List.getElem_range']
    omega

/-- Python's list slice `l[a:b]` (for `b` within bounds) lists, in order,
the elements selected by the single indices `a, a+1, ..., b-1`. -/
theorem drop_take_eq_map_getD (l : List (List Nat)) (a b : Nat) (hb : b ≤ l.length) :
    (l.drop a).take (b - a) = (List.range' a (b - a)).map (fun i => l.getD i []) := by
  apply List.ext_getElem
  · rw [List.length_take, List.length_drop, List.length_map, List.length_range']
    omega
  · intro j h1 h2
    have hj : a + j < l.length := by
      rw [List.length_take, List.length_drop] at h1
      omega
    rw [List.getElem_take, List.getElem_drop, List.getElem_map, List.getElem_range']
    simp only [one_mul]
    rw [List.getD_eq_getElem _ _ hj]

/-- A single in-range non-negative batch index returns the stored index
list at that position. -/
theorem getItemIndices_single_of_lt {δ : Type} (g : DataGenerator δ) (i : Nat)
    (hi : i < g.batch_indices.length) :
    getItemIndices g (.single (i : Int)) = some (g.batch_indices.getD i []) := by
  simp only [getItemIndices, pyListGet]
  rw [if_neg (by omega : ¬ ((i : Int) < 0))]
  rw [if_pos (by omega : (0 : Int) ≤ (i : Int))]
  rw [Int.toNat_natCast, List.getElem?_eq_getElem hi, List.getD_eq_getElem _ _ hi]

/-- Characterisation of the `IndexError` cases of Python list indexing:
`l[i]` fails exactly when `i ≥ len(l)` or `i < -len(l)`. -/
theorem pyListGet_eq_none_iff {β : Type} (l : List β) (i : Int) :
    pyListGet l i = none ↔ ((l.length : Int) ≤ i ∨ i + l.length < 0) := by
  simp only [pyListGet]
  by_cases h : i < 0
  · rw [if_pos h]
    by_cases h2 : (0 : Int) ≤ i + l.length
    · rw [if_pos h2]
      have hlt : (i + l.length).toNat < l.length := by omega
      rw [List.getElem?_eq_getElem hlt]
      simp
      omega
    · rw [if_neg h2]
      simp
      omega
  · rw [if_neg h]
    rw [if_pos (by omega : (0 : Int) ≤ i)]
    by_cases h3 : i.toNat < l.length
    · rw [List.getElem?_eq_getElem h3]
      simp
      omega
    · rw [List.getElem?_eq_none (by omega)]
      simp
      omega

/-- `_set_indices` depends only on the shuffle flag, the dataset size, the
batch size and the random-source state: it is a congruence in those. -/
theorem setIndices_congr {δ σ : Type} (lenD : δ → Nat)
    (randPerm : σ → Nat → List Nat × σ) (g₁ g₂ : DataGenerator δ) (rng : σ)
    (hsh : g₁.shuffle = g₂.shuffle)
    (hn : numInstance lenD g₁ = numInstance lenD g₂)
    (hb : g₁.batch_size = g₂.batch_size) :
    (setIndices lenD randPerm g₁ rng).1.batch_indices
      = (setIndices lenD randPerm g₂ rng).1.batch_indices
    ∧ (setIndices lenD randPerm g₁ rng).2 = (setIndices lenD randPerm g₂ rng).2 := by
  have hlen : len lenD g₁ = len lenD g₂ := by
    unfold len
    rw [hn, hb]
  constructor
  · simp only [setIndices_batch_indices, hsh, hn, hb, hlen]
  · simp only [setIndices, hsh, hn]

/-! Claims -/

/-- Claim C1: after construction and after every `reset()` or
`on_epoch_end()` call, the stored index partition is a partition of
`range(num_instances)` into `ceil(num_instances / batch_size)` batches:
their concatenation contains every index in `[0, num_instances)` exactly
once (stated as a permutation of `List.range`), regardless of the shuffle
flag, and every batch except possibly the last has exactly `batch_size`
indices.  The random source is assumed to honour numpy's contract of
drawing a permutation of `range n`. -/
theorem C1_partition_invariant {δ σ : Type} (lenD : δ → Nat)
    (randPerm : σ → Nat → List Nat × σ) (dp : δ) (bs : Nat) (sh : Bool)
    (rng₀ : σ) (g : DataGenerator δ) (rng : σ)
    (hbs : 0 < bs) (hgbs : 0 < g.batch_size)
    (hperm : ∀ s n, ((randPerm s n).1).Perm (List.range n)) :
    partitionOk ((mkDataGenerator lenD randPerm dp bs sh rng₀).1.batch_indices)
        (lenD dp) bs
    ∧ partitionOk ((reset lenD randPerm g rng).1.batch_indices)
        (numInstance lenD g) g.batch_size
    ∧ partitionOk ((onEpochEnd lenD randPerm g rng).1.batch_indices)
        (numInstance lenD g) g.batch_size := by
  refine ⟨?_, ?_, ?_⟩
  · exact setIndices_partitionOk lenD randPerm
      { data_pack := dp, batch_size := bs, shuffle := sh, batch_indices := [] }
      rng₀ hbs hperm
  · exact setIndices_partitionOk lenD randPerm g rng hgbs hperm
  · exact setIndices_partitionOk lenD randPerm g rng hgbs hperm

/-- Claim C1 witness: the partition invariant at a shuffled five-instance
generator with batch size 2 and at the concrete generator `gTwo`. -/
theorem C1_partition_invariant_witness :
    partitionOk ((mkDataGenerator natLen revPerm 5 2 true ()).1.batch_indices)
        (natLen 5) 2
    ∧ partitionOk ((reset natLen revPerm gTwo ()).1.batch_indices)
        (numInstance natLen gTwo) gTwo.batch_size
    ∧ partitionOk ((onEpochEnd natLen revPerm gTwo ()).1.batch_indices)
        (numInstance natLen gTwo) gTwo.batch_size :=
  C1_partition_invariant natLen revPerm 5 2 true () gTwo ()
    (by decide) (by decide) (fun _ n => List.reverse_perm (List.range n))

/-- Claim C2: with the shuffle flag off, the batch stored at each index
`i < length()` after `_set_indices` is exactly
`range(i*batch_size, min((i+1)*batch_size, num_instances))`, in increasing
order. -/
theorem C2_no_shuffle_batches {δ σ : Type} (lenD : δ → Nat)
    (randPerm : σ → Nat → List Nat × σ) (g : DataGenerator δ) (rng : σ)
    (i : Nat) (hsh : g.shuffle = false) (hi : i < len lenD g) :
    ((setIndices lenD randPerm g rng).1.batch_indices)[i]?
      = some (List.range' (i * g.batch_size)
          (min ((i + 1) * g.batch_size) (numInstance lenD g)
            - i * g.batch_size)) := by
  rw [setIndices_batch_indices, hsh]
  rw [List.getElem?_map, List.getElem?_range hi]
  simp only [Bool.false_eq_true, if_false, Option.map_some']
  rw [chunk_width, take_drop_range]
  have hstart : g.batch_size * i = i * g.batch_size := Nat.mul_comm _ _
  have hsucc : (i + 1) * g.batch_size = i * g.batch_size + g.batch_size :=
    Nat.succ_mul i g.batch_size
  rw [hstart]
  have hlen2 : min g.batch_size (numInstance lenD g - i * g.batch_size)
      = min ((i + 1) * g.batch_size) (numInstance lenD g)
        - i * g.batch_size := by omega
  rw [hlen2]

/-- Claim C2 witness: batch 1 of the concrete non-shuffled generator state
`gTwo` re-sliced by `_set_indices`. -/
theorem C2_no_shuffle_batches_witness :
    ((setIndices natLen revPerm gTwo ()).1.batch_indices)[1]?
      = some (List.range' (1 * gTwo.batch_size)
          (min ((1 + 1) * gTwo.batch_size) (numInstance natLen gTwo)
            - 1 * gTwo.batch_size)) :=
  C2_no_shuffle_batches natLen revPerm gTwo () 1 (by decide) (by decide)

/-- Claim C3: for a positive batch size, `__len__` returns the ceiling of
`num_instances / batch_size`; moreover it reads the dataset size live and
does not depend on the stored index partition. -/
theorem C3_len_is_ceil {δ : Type} (lenD : δ → Nat) (g : DataGenerator δ)
    (hbs : 0 < g.batch_size) :
    len lenD g = ⌈(numInstance lenD g : ℚ) / (g.batch_size : ℚ)⌉₊
    ∧ ∀ bi : List (List Nat),
        len lenD { g with batch_indices := bi } = len lenD g := by
  constructor
  · set n := numInstance lenD g with hn
    set bs := g.batch_size with hbsd
    have hlen : len lenD g = (n + bs - 1) / bs := by
      rw [hn, hbsd]
      rfl
    have hbsQ : (0 : ℚ) < (bs : ℚ) := by exact_mod_cast hbs
    apply le_antisymm
    · rcases Nat.eq_zero_or_pos (len lenD g) with h0 | h0
      · omega
      · have h1 : (len lenD g - 1) < ⌈(n : ℚ) / (bs : ℚ)⌉₊ := by
          rw [Nat.lt_ceil, lt_div_iff₀ hbsQ]
          have h2 : bs * (len lenD g - 1) < n := by
            rw [hlen]
            exact mul_pred_ceil_lt n bs hbs (by omega)
          have h3 : (len lenD g - 1) * bs < n := by
            rw [Nat.mul_comm] at h2
            exact h2
          exact_mod_cast h3
        omega
    · rw [Nat.ceil_le, div_le_iff₀ hbsQ]
      have h2 : n ≤ bs * len lenD g := by
        rw [hlen]
        exact le_mul_ceil n bs hbs
      have h3 : n ≤ len lenD g * bs := by
        rw [Nat.mul_comm] at h2
        exact h2
      exact_mod_cast h3
  · intro bi
    rfl

/-- Claim C3 witness: the length formula at the concrete generator
`gTwo`. -/
theorem C3_len_is_ceil_witness :
    len natLen gTwo = ⌈(numInstance natLen gTwo : ℚ) / (gTwo.batch_size : ℚ)⌉₊
    ∧ ∀ bi : List (List Nat),
        len natLen { gTwo with batch_indices := bi } = len natLen gTwo :=
  C3_len_is_ceil natLen gTwo (by decide)

/-- Claim C4: for `0 ≤ a ≤ b ≤ length()` on a fresh partition, the index
list that `__getitem__` hands to unpack for the slice `a:b` is the ordered
concatenation of the index lists handed over for the single indices
`a, ..., b-1`, and the slice form performs one unpack call over that
concatenation. -/
theorem C4_slice_is_concat {δ α : Type} (lenD : δ → Nat)
    (unpackAt : δ → List Nat → α) (g : DataGenerator δ) (a b : Nat)
    (hab : a ≤ b) (hb : b ≤ len lenD g)
    (hfresh : g.batch_indices.length = len lenD g) :
    -- the claim ranges over `a ≤ b`; `hab` is kept to mirror it even though
    -- clamping makes the proof independent of it
    getItemIndices g (.slice a b)
      = some (((List.range' a (b - a)).map
          (fun i => g.batch_indices.getD i [])).flatten)
    ∧ (∀ i : Nat, a ≤ i → i < b →
        getItemIndices g (.single (i : Int))
          = some (g.batch_indices.getD i []))
    ∧ getItem unpackAt g (.slice a b)
      = some (unpackAt g.data_pack (((List.range' a (b - a)).map
          (fun i => g.batch_indices.getD i [])).flatten)) := by
  have hbl : b ≤ g.batch_indices.length := by omega
  have hslice : getItemIndices g (.slice a b)
      = some (((List.range' a (b - a)).map
          (fun i => g.batch_indices.getD i [])).flatten) := by
    simp only [getItemIndices]
    rw [foldl_append_eq_flatten, List.nil_append]
    rw [drop_take_eq_map_getD g.batch_indices a b hbl]
  refine ⟨hslice, ?_, ?_⟩
  · intro i _ hib
    exact getItemIndices_single_of_lt g i (by omega)
  · simp only [getItem]
    rw [hslice]
    rfl

/-- Claim C4 witness: the slice `0:2` of the concrete generator `gTwo`. -/
theorem C4_slice_is_concat_witness :
    getItemIndices gTwo (.slice 0 2)
      = some (((List.range' 0 (2 - 0)).map
          (fun i => gTwo.batch_indices.getD i [])).flatten)
    ∧ (∀ i : Nat, 0 ≤ i → i < 2 →
        getItemIndices gTwo (.single (i : Int))
          = some (gTwo.batch_indices.getD i []))
    ∧ getItem idUnpack gTwo (.slice 0 2)
      = some (idUnpack gTwo.data_pack (((List.range' 0 (2 - 0)).map
          (fun i => gTwo.batch_indices.getD i [])).flatten)) :=
  C4_slice_is_concat natLen idUnpack gTwo 0 2 (by decide) (by decide) (by decide)

/-- Claim C5 counterexample: on the fresh two-batch generator `gTwo`, the
negative batch index `-1` does not fail: Python list indexing wraps
negative indices, so `getBatch(-1)` returns the last batch.  This refutes
the claim that every negative index raises `IndexError`. -/
theorem C5_negative_index_counterexample :
    (-1 : Int) < 0
    ∧ gTwo.batch_indices.length = len natLen gTwo
    ∧ getItemIndices gTwo (.single (-1)) = some [1] :=
  ⟨by decide, by decide, by decide⟩

/-- Claim C5 (amended): on a fresh partition, single-index access fails
exactly when the index is `≥ length()` or `< -length()` (negative indices
down to `-length()` wrap around, Python style); in particular
`getBatch(length())` fails.  The embedding of `__getitem__` is a pure
function of the generator state, so a failing call cannot change it. -/
theorem C5_single_out_of_range {δ : Type} (lenD : δ → Nat)
    (g : DataGenerator δ) (i : Int)
    (hfresh : g.batch_indices.length = len lenD g) :
    (getItemIndices g (.single i) = none
      ↔ ((len lenD g : Int) ≤ i ∨ i < -(len lenD g : Int)))
    ∧ getItemIndices g (.single (len lenD g : Int)) = none := by
  have hmain : ∀ j : Int, (getItemIndices g (.single j) = none
      ↔ ((len lenD g : Int) ≤ j ∨ j < -(len lenD g : Int))) := by
    intro j
    show pyListGet g.batch_indices j = none ↔ _
    rw [pyListGet_eq_none_iff, hfresh]
    omega
  exact ⟨hmain i, (hmain (len lenD g : Int)).mpr (Or.inl (le_refl _))⟩

/-- Claim C5 witness: the amended failure condition at the concrete
generator `gTwo` and index 5. -/
theorem C5_single_out_of_range_witness :
    (getItemIndices gTwo (.single 5) = none
      ↔ ((len natLen gTwo : Int) ≤ 5 ∨ (5 : Int) < -(len natLen gTwo : Int)))
    ∧ getItemIndices gTwo (.single (len natLen gTwo : Int)) = none :=
  C5_single_out_of_range natLen gTwo 5 (by decide)

/-- Claim C6: with the shuffle flag set, the partition computed by
`_set_indices` is a deterministic function of the random-source state, the
dataset size and the batch size: two states (and in particular two
constructions over datasets of equal size) processed from the same seeded
random-source state yield identical partitions. -/
theorem C6_shuffle_deterministic {δ σ : Type} (lenD : δ → Nat)
    (randPerm : σ → Nat → List Nat × σ) (g₁ g₂ : DataGenerator δ) (rng : σ)
    (h₁ : g₁.shuffle = true) (h₂ : g₂.shuffle = true)
    (hn : numInstance lenD g₁ = numInstance lenD g₂)
    (hb : g₁.batch_size = g₂.batch_size) :
    (setIndices lenD randPerm g₁ rng).1.batch_indices
      = (setIndices lenD randPerm g₂ rng).1.batch_indices
    ∧ ∀ (dp₁ dp₂ : δ) (bs : Nat) (rng₀ : σ), lenD dp₁ = lenD dp₂ →
        (mkDataGenerator lenD randPerm dp₁ bs true rng₀).1.batch_indices
          = (mkDataGenerator lenD randPerm dp₂ bs true rng₀).1.batch_indices := by
  constructor
  · exact (setIndices_congr lenD randPerm g₁ g₂ rng (h₁.trans h₂.symm) hn hb).1
  · intro dp₁ dp₂ bs rng₀ hdp
    exact (setIndices_congr lenD randPerm
      { data_pack := dp₁, batch_size := bs, shuffle := true, batch_indices := [] }
      { data_pack := dp₂, batch_size := bs, shuffle := true, batch_indices := [] }
      rng₀ rfl hdp rfl).1

/-- Claim C6 witness: two shuffled states with equal dataset size and batch
size but different stored partitions, re-shuffled from the same seed. -/
theorem C6_shuffle_deterministic_witness :
    (setIndices natLen revPerm gShufA ()).1.batch_indices
      = (setIndices natLen revPerm gShufB ()).1.batch_indices
    ∧ ∀ (dp₁ dp₂ : Nat) (bs : Nat) (rng₀ : Unit), natLen dp₁ = natLen dp₂ →
        (mkDataGenerator natLen revPerm dp₁ bs true rng₀).1.batch_indices
          = (mkDataGenerator natLen revPerm dp₂ bs true rng₀).1.batch_indices :=
  C6_shuffle_deterministic natLen revPerm gShufA gShufB ()
    (by decide) (by decide) (by decide) (by decide)

/-- Claim C7: `reset()` and `on_epoch_end()` are the same operation: from
any state and random-source state they produce identical results, and the
recomputation is in full, never incremental: the new partition does not
depend on the previously stored one. -/
theorem C7_reset_eq_onEpochEnd {δ σ : Type} (lenD : δ → Nat)
    (randPerm : σ → Nat → List Nat × σ) (g : DataGenerator δ) (rng : σ) :
    reset lenD randPerm g rng = onEpochEnd lenD randPerm g rng
    ∧ ∀ bi₁ bi₂ : List (List Nat),
        (reset lenD randPerm { g with batch_indices := bi₁ } rng).1.batch_indices
          = (reset lenD randPerm { g with batch_indices := bi₂ } rng).1.batch_indices := by
  refine ⟨rfl, fun bi₁ bi₂ => ?_⟩
  exact (setIndices_congr lenD randPerm
    { g with batch_indices := bi₁ } { g with batch_indices := bi₂ } rng rfl rfl rfl).1

/-- Claim C8: the dataset reference, batch size and shuffle flag are set by
the constructor and never rewritten: `_set_indices`, `reset` and
`on_epoch_end` only replace `_batch_indices`, and `__getitem__`, `__len__`
and `num_instance` are pure reads in this embedding, so no operation
touches the three configuration fields. -/
theorem C8_config_fields_frame {δ σ : Type} (lenD : δ → Nat)
    (randPerm : σ → Nat → List Nat × σ) (g : DataGenerator δ) (rng : σ)
    (dp : δ) (bs : Nat) (sh : Bool) :
    ((setIndices lenD randPerm g rng).1.data_pack = g.data_pack
      ∧ (setIndices lenD randPerm g rng).1.batch_size = g.batch_size
      ∧ (setIndices lenD randPerm g rng).1.shuffle = g.shuffle)
    ∧ ((reset lenD randPerm g rng).1.data_pack = g.data_pack
      ∧ (reset lenD randPerm g rng).1.batch_size = g.batch_size
      ∧ (reset lenD randPerm g rng).1.shuffle = g.shuffle)
    ∧ ((onEpochEnd lenD randPerm g rng).1.data_pack = g.data_pack
      ∧ (onEpochEnd lenD randPerm g rng).1.batch_size = g.batch_size
      ∧ (onEpochEnd lenD randPerm g rng).1.shuffle = g.shuffle)
    ∧ ((mkDataGenerator lenD randPerm dp bs sh rng).1.data_pack = dp
      ∧ (mkDataGenerator lenD randPerm dp bs sh rng).1.batch_size = bs
      ∧ (mkDataGenerator lenD randPerm dp bs sh rng).1.shuffle = sh) :=
  ⟨⟨rfl, rfl, rfl⟩, ⟨rfl, rfl, rfl⟩, ⟨rfl, rfl, rfl⟩, rfl, rfl, rfl⟩

/-- Claim C9: for an empty dataset and a positive batch size, construction
succeeds (the embedding is total), `__len__` is 0, the stored partition is
the empty sequence, and every single-index access fails with
`IndexError`. -/
theorem C9_empty_dataset {δ σ : Type} (lenD : δ → Nat)
    (randPerm : σ → Nat → List Nat × σ) (dp : δ) (bs : Nat) (sh : Bool)
    (rng : σ) (h0 : lenD dp = 0) (hbs : 0 < bs) :
    len lenD (mkDataGenerator lenD randPerm dp bs sh rng).1 = 0
    ∧ (mkDataGenerator lenD randPerm dp bs sh rng).1.batch_indices = []
    ∧ ∀ i : Int,
        getItemIndices (mkDataGenerator lenD randPerm dp bs sh rng).1
          (.single i) = none := by
  have hlen0 : len lenD (mkDataGenerator lenD randPerm dp bs sh rng).1 = 0 := by
    show (lenD dp + bs - 1) / bs = 0
    rw [h0]
    exact Nat.div_eq_of_lt (by omega)
  have hlen0i : len lenD
      { data_pack := dp, batch_size := bs, shuffle := sh,
        batch_indices := ([] : List (List Nat)) } = 0 := hlen0
  have hbi : (mkDataGenerator lenD randPerm dp bs sh rng).1.batch_indices = [] := by
    unfold mkDataGenerator
    rw [setIndices_batch_indices, hlen0i, List.range_zero, List.map_nil]
  refine ⟨hlen0, hbi, fun i => ?_⟩
  have hg : getItemIndices (mkDataGenerator lenD randPerm dp bs sh rng).1 (.single i)
      = pyListGet ((mkDataGenerator lenD randPerm dp bs sh rng).1.batch_indices) i := rfl
  rw [hg, hbi]
  exact (pyListGet_eq_none_iff [] i).mpr (by simp; omega)

/-- Claim C9 witness: the empty dataset with batch size 3, shuffled. -/
theorem C9_empty_dataset_witness :
    len natLen (mkDataGenerator natLen revPerm 0 3 true ()).1 = 0
    ∧ (mkDataGenerator natLen revPerm 0 3 true ()).1.batch_indices = []
    ∧ ∀ i : Int,
        getItemIndices (mkDataGenerator natLen revPerm 0 3 true ()).1
          (.single i) = none :=
  C9_empty_dataset natLen revPerm 0 3 true () (by decide) (by decide)

/-- Claim C10: slice access never fails, whatever the bounds: it is clamped
to the existing batches, so for `b > length()` on a fresh partition the
slice `a:b` yields the concatenation of the index lists of batches
`a, ..., length()-1` (empty when `a ≥ length()`), unpacked in one call,
instead of raising an error. -/
theorem C10_slice_never_fails {δ α : Type} (lenD : δ → Nat)
    (unpackAt : δ → List Nat → α) (g : DataGenerator δ) (a b : Nat)
    (hfresh : g.batch_indices.length = len lenD g)
    (hb : len lenD g < b) :
    (∀ a₂ b₂ : Nat, (getItemIndices g (.slice a₂ b₂)).isSome = true)
    ∧ getItemIndices g (.slice a b)
        = some (((List.range' a (len lenD g - a)).map
            (fun i => g.batch_indices.getD i [])).flatten)
    ∧ getItem unpackAt g (.slice a b)
        = some (unpackAt g.data_pack (((List.range' a (len lenD g - a)).map
            (fun i => g.batch_indices.getD i [])).flatten)) := by
  have hsome : ∀ a₂ b₂ : Nat, (getItemIndices g (.slice a₂ b₂)).isSome = true := by
    intro a₂ b₂
    rfl
  have hslice : getItemIndices g (.slice a b)
      = some (((List.range' a (len lenD g - a)).map
          (fun i => g.batch_indices.getD i [])).flatten) := by
    simp only [getItemIndices]
    rw [foldl_append_eq_flatten, List.nil_append]
    have h1 : (g.batch_indices.drop a).take (b - a) = g.batch_indices.drop a := by
      apply List.take_of_length_le
      rw [List.length_drop]
      omega
    have h2 : g.batch_indices.drop a
        = (g.batch_indices.drop a).take (g.batch_indices.length - a) := by
      rw [← List.length_drop, List.take_length]
    rw [h1, h2]
    rw [drop_take_eq_map_getD g.batch_indices a g.batch_indices.length (le_refl _)]
    rw [hfresh]
  exact ⟨hsome, hslice, by simp only [getItem]; rw [hslice]; rfl⟩

/-- Claim C10 witness: the overlong slice `1:5` of the two-batch concrete
generator `gTwo`. -/
theorem C10_slice_never_fails_witness :
    (∀ a₂ b₂ : Nat, (getItemIndices gTwo (.slice a₂ b₂)).isSome = true)
    ∧ getItemIndices gTwo (.slice 1 5)
        = some (((List.range' 1 (len natLen gTwo - 1)).map
            (fun i => gTwo.batch_indices.getD i [])).flatten)
    ∧ getItem idUnpack gTwo (.slice 1 5)
        = some (idUnpack gTwo.data_pack (((List.range' 1 (len natLen gTwo - 1)).map
            (fun i => gTwo.batch_indices.getD i [])).flatten)) :=
  C10_slice_never_fails natLen idUnpack gTwo 1 5 (by decide) (by decide)

end MatchZoo
